import Mathlib

/-!
Verification model of the connection hub of `rtcs` (SWAPD351 project).

The definitions below are a shallow embedding of
`internal/transport/websocket.go` (the `WebSocketHandler` event loop
`run`, the per-connection `Client` with its `readPump`, `close`, and
the user-list broadcasting helpers) and of the Redis-backed
`StatusService` (presence store adapter).

Modelling conventions:
  * Go maps are modelled as association lists with map semantics
    (insert replaces, erase removes the key).
  * `*Client` pointers are modelled as numeric client ids pointing into
    a heap (`HubState.heap`); the registry sets (`h.clients`,
    `h.userIDs`, `h.knownUsers`) hold ids / user ids as in the source.
  * Side effects on the outside world (Redis presence writes, queueing
    a frame on `h.broadcast`, closing the transport, ...) are recorded
    as an explicit `Effect` trace in the order the Go code performs
    them.  Calls whose payload depends on an external read
    (`broadcastUserList` reads Redis) are recorded as a trigger effect,
    and the payload they produce is modelled by a separate function
    taking the external read's result as an argument.
  * JSON frames are modelled at the level of JSON objects: a marshalled
    frame is the ordered list of emitted fields (`marshalMsg`, which
    mirrors Go's struct-order field emission with `omitempty`), and
    `serializeFields` renders such a field list to the wire string.
  * The token-bucket limiter `rate.NewLimiter(rate.Limit(5), 1)` is
    modelled with integer arithmetic: timestamps in milliseconds and
    tokens in units of 1/200 token, so the refill rate (5 tokens/sec)
    is exactly 1 unit per millisecond and the burst (1 token) is 200
    units.
-/

namespace RTCS

/-! ## Association-list helpers (Go map model) -/

def lookupA {α β : Type} [DecidableEq α] : List (α × β) → α → Option β
  | [], _ => none
  | (k', v) :: rest, k => if k' = k then some v else lookupA rest k

def eraseA {α β : Type} [DecidableEq α] : List (α × β) → α → List (α × β)
  | [], _ => []
  | (k', v) :: rest, k =>
      if k' = k then eraseA rest k else (k', v) :: eraseA rest k

/-- Map-semantics insert: replaces any existing binding of the key. -/
def insertA {α β : Type} [DecidableEq α] (l : List (α × β)) (k : α) (v : β) :
    List (α × β) :=
  (k, v) :: eraseA l k

theorem lookupA_insertA_self {α β : Type} [DecidableEq α] (l : List (α × β)) (k : α)
    (v : β) : lookupA (insertA l k v) k = some v := by
  simp [insertA, lookupA]

theorem lookupA_eraseA {α β : Type} [DecidableEq α] (l : List (α × β)) (k k' : α) :
    lookupA (eraseA l k) k' = if k = k' then none else lookupA l k' := by
  induction l with
  | nil => simp [eraseA, lookupA]
  | cons p rest ih =>
      obtain ⟨k₀, v₀⟩ := p
      by_cases h₁ : k = k'
      · subst h₁
        by_cases h₀ : k₀ = k
        · simp [eraseA, h₀, ih]
        · simp [eraseA, lookupA, h₀, ih]
      · by_cases h₀ : k₀ = k
        · have h₂ : k₀ ≠ k' := fun h => h₁ (h₀.symm.trans h)
          simp [eraseA, h₀, lookupA, ih, h₁, h₂]
        · by_cases h₂ : k₀ = k'
          · have h₃ : k' ≠ k := fun h => h₀ (h₂.trans h)
            simp [eraseA, h₀, lookupA, ih, h₁, h₂, h₃]
          · simp [eraseA, h₀, lookupA, ih, h₁, h₂]

theorem lookupA_insertA_ne {α β : Type} [DecidableEq α] (l : List (α × β)) (k k' : α)
    (v : β) (h : k ≠ k') :
    lookupA (insertA l k v) k' = lookupA l k' := by
  simp [insertA, lookupA, h, lookupA_eraseA]

theorem mem_eraseA {α β : Type} [DecidableEq α] (l : List (α × β)) (k : α)
    (p : α × β) (hp : p ∈ eraseA l k) : p ∈ l ∧ p.1 ≠ k := by
  induction l with
  | nil => simp [eraseA] at hp
  | cons q rest ih =>
      obtain ⟨k₀, v₀⟩ := q
      by_cases h₀ : k₀ = k
      · subst h₀
        simp only [eraseA, if_pos rfl] at hp
        rcases ih hp with ⟨h₁, h₂⟩
        exact ⟨List.mem_cons_of_mem _ h₁, h₂⟩
      · simp only [eraseA, if_neg h₀] at hp
        rcases List.mem_cons.mp hp with h₁ | h₁
        · subst h₁; exact ⟨List.mem_cons_self _ _, h₀⟩
        · rcases ih h₁ with ⟨h₂, h₃⟩
          exact ⟨List.mem_cons_of_mem _ h₂, h₃⟩

theorem mem_insertA {α β : Type} [DecidableEq α] (l : List (α × β)) (k : α) (v : β)
    (p : α × β) (hp : p ∈ insertA l k v) :
    p = (k, v) ∨ (p ∈ l ∧ p.1 ≠ k) := by
  rcases List.mem_cons.mp hp with h | h
  · exact Or.inl h
  · exact Or.inr (mem_eraseA l k p h)

theorem lookupA_mem {α β : Type} [DecidableEq α] (l : List (α × β)) (k : α) (v : β)
    (h : lookupA l k = some v) : (k, v) ∈ l := by
  induction l with
  | nil => simp [lookupA] at h
  | cons p rest ih =>
      obtain ⟨k₀, v₀⟩ := p
      by_cases h₀ : k₀ = k
      · subst h₀
        simp [lookupA] at h
        subst h; exact List.mem_cons_self _ _
      · simp [lookupA, h₀] at h
        exact List.mem_cons_of_mem _ (ih h)

/-! ## JSON frames and the `WebSocketMessage` struct

Mirrors `model.UserProfile` (internal/model/user.go) and
`WebSocketMessage` (internal/transport/websocket.go).  A marshalled
frame is the list of JSON fields Go's `json.Marshal` emits for the
struct: fields in declaration order, fields tagged `omitempty` skipped
when they hold their zero value (`Type` has no `omitempty` and is
always emitted). -/

structure UserProfile where
  id : String
  username : String
  displayName : String
  avatarURL : String
  about : String
  deriving DecidableEq, Repr

/-- A JSON value as it occurs in hub frames: a string, a string array
(`users`), a string map (`statuses`) or a profile map (`profiles`). -/
inductive JVal where
  | s (v : String)
  | arr (vs : List String)
  | smap (m : List (String × String))
  | pmap (m : List (String × UserProfile))
  deriving DecidableEq, Repr

structure WebSocketMessage where
  type : String := ""
  userId : String := ""
  text : String := ""
  sender : String := ""
  users : List String := []
  status : String := ""
  statuses : List (String × String) := []
  profiles : List (String × UserProfile) := []
  deriving DecidableEq, Repr

instance : Inhabited WebSocketMessage := ⟨{}⟩

/-- `json.Marshal` of a `WebSocketMessage`: emitted fields in struct
order; every field but `type` is tagged `omitempty`. -/
def marshalMsg (m : WebSocketMessage) : List (String × JVal) :=
  [("type", JVal.s m.type)]
    ++ (if m.userId = "" then [] else [("userId", JVal.s m.userId)])
    ++ (if m.text = "" then [] else [("text", JVal.s m.text)])
    ++ (if m.sender = "" then [] else [("sender", JVal.s m.sender)])
    ++ (if m.users = [] then [] else [("users", JVal.arr m.users)])
    ++ (if m.status = "" then [] else [("status", JVal.s m.status)])
    ++ (if m.statuses = [] then [] else [("statuses", JVal.smap m.statuses)])
    ++ (if m.profiles = [] then [] else [("profiles", JVal.pmap m.profiles)])

/-- Reading one struct field during `json.Unmarshal`: an absent key
leaves the zero value, a key of the wrong JSON shape is a decode
error. -/
def getStr (fs : List (String × JVal)) (k : String) : Option String :=
  match lookupA fs k with
  | none => some ""
  | some (JVal.s v) => some v
  | some _ => none

def getArr (fs : List (String × JVal)) (k : String) : Option (List String) :=
  match lookupA fs k with
  | none => some []
  | some (JVal.arr vs) => some vs
  | some _ => none

def getSMap (fs : List (String × JVal)) (k : String) :
    Option (List (String × String)) :=
  match lookupA fs k with
  | none => some []
  | some (JVal.smap m) => some m
  | some _ => none

def getPMap (fs : List (String × JVal)) (k : String) :
    Option (List (String × UserProfile)) :=
  match lookupA fs k with
  | none => some []
  | some (JVal.pmap m) => some m
  | some _ => none

/-- `json.Unmarshal` of a JSON object into `WebSocketMessage`:
recognised keys populate the struct, unknown keys are ignored, a
recognised key of the wrong shape fails the decode. -/
def decodeFields (fs : List (String × JVal)) : Option WebSocketMessage := do
  let ty ← getStr fs "type"
  let uid ← getStr fs "userId"
  let text ← getStr fs "text"
  let sender ← getStr fs "sender"
  let users ← getArr fs "users"
  let status ← getStr fs "status"
  let statuses ← getSMap fs "statuses"
  let profiles ← getPMap fs "profiles"
  pure { type := ty, userId := uid, text := text, sender := sender,
         users := users, status := status, statuses := statuses,
         profiles := profiles }

/-- Render one JSON value to its wire text (string escaping is not
needed for the inputs considered here). -/
def serializeJVal : JVal → String
  | JVal.s v => "\"" ++ v ++ "\""
  | JVal.arr vs =>
      "[" ++ String.intercalate "," (vs.map (fun v => "\"" ++ v ++ "\"")) ++ "]"
  | JVal.smap m =>
      "\x7b" ++ String.intercalate ","
        (m.map (fun p => "\"" ++ p.1 ++ "\":\"" ++ p.2 ++ "\"")) ++ "\x7d"
  | JVal.pmap _ => "\x7b\x7d"

/-- Render a JSON object (a field list) to its wire text. -/
def serializeFields (fs : List (String × JVal)) : String :=
  "\x7b" ++ String.intercalate ","
    (fs.map (fun p => "\"" ++ p.1 ++ "\":" ++ serializeJVal p.2)) ++ "\x7d"

/-- An inbound wire frame: either a JSON object (whose wire bytes are
its canonical serialization) or a payload `json.Unmarshal` rejects,
carried with its raw bytes. -/
inductive InFrame where
  | obj (fields : List (String × JVal))
  | malformed (raw : String)
  deriving DecidableEq, Repr

/-! ## Hub state

Mirrors `Client` and `WebSocketHandler`.  `send` is the contents of the
client's buffered outbound channel `make(chan []byte, 256)`; `closed`
is the `Client.closed` flag guarding `Client.close`;
`limiterTokens`/`limiterLast` is the `rate.Limiter` state (see the file
header for the unit convention). -/

/-- Capacity of a client's outbound channel (`make(chan []byte, 256)`). -/
def sendCap : Nat := 256

/-- Burst of the limiter, in 1/200-token units (burst 1 token). -/
def burstUnits : Nat := 200

structure ClientData where
  userID : String := ""
  send : List (List (String × JVal)) := []
  sendClosed : Bool := false
  closed : Bool := false
  limiterTokens : Nat := burstUnits
  limiterLast : Nat := 0
  deriving DecidableEq, Repr

instance : Inhabited ClientData := ⟨{}⟩

structure HubState where
  heap : List (Nat × ClientData) := []
  clients : List Nat := []
  userIDs : List (String × Nat) := []
  knownUsers : List String := []
  activeConnections : Int := 0
  deriving DecidableEq, Repr

instance : Inhabited HubState := ⟨{}⟩

/-- Dereference a client id (a `*Client` in Go). -/
def getClient (s : HubState) (cid : Nat) : ClientData :=
  (lookupA s.heap cid).getD default

/-- Update every binding of a key in an association list. -/
def updA {α β : Type} [DecidableEq α] :
    List (α × β) → α → (β → β) → List (α × β)
  | [], _, _ => []
  | (k', v) :: rest, k, f =>
      if k' = k then (k', f v) :: updA rest k f
      else (k', v) :: updA rest k f

/-- Mutate the client a pointer refers to. -/
def updClient (s : HubState) (cid : Nat) (f : ClientData → ClientData) :
    HubState :=
  { s with heap := updA s.heap cid f }

/-- Observable side effects of the hub, in program order.
`userListBroadcast` records an `h.broadcastUserList()` call (whose
payload, computed from an external Redis read, is modelled by
`broadcastUserListMsg`); `sendUserList cid` records
`h.sendUserListWithStatus(c)`. -/
inductive Effect where
  | setOnline (uid : String)
  | setOffline (uid : String)
  | enqueueBroadcast (frame : List (String × JVal))
  | closeTransport (cid : Nat)
  | closeSend (cid : Nat)
  | userListBroadcast
  | sendUserList (cid : Nat)
  | startHeartbeat (cid : Nat)
  deriving DecidableEq, Repr

/-- `limiter.Allow()` of `rate.NewLimiter(rate.Limit(5), 1)` at
millisecond timestamp `now`: advance the bucket by the elapsed time
(1 unit per ms, capped at the burst), then take one token (200 units)
if available. -/
def limiterAllow (cd : ClientData) (now : Nat) : Bool × ClientData :=
  let t := min burstUnits (cd.limiterTokens + (now - cd.limiterLast))
  if burstUnits ≤ t then
    (true, { cd with limiterTokens := t - burstUnits, limiterLast := now })
  else
    (false, { cd with limiterTokens := t, limiterLast := now })

/-- `h.broadcastMessage(msg)` (websocket.go:449-470): refresh the
sender's presence if the message names one, drop heartbeats, marshal
and queue everything else on `h.broadcast`. -/
def broadcastMessageEff (m : WebSocketMessage) : List Effect :=
  (if m.sender = "" then [] else [Effect.setOnline m.sender])
    ++ (if m.type = "heartbeat" then [] else
          [Effect.enqueueBroadcast (marshalMsg m)])

/-! ## The Broadcast Engine (`WebSocketHandler.run`, websocket.go:104-162) -/

/-- The `register` case of `run`: add the client to `h.clients` and
bump the active-connections counter. -/
def registerStep (s : HubState) (cid : Nat) : HubState :=
  { s with
    clients := if cid ∈ s.clients then s.clients else cid :: s.clients,
    activeConnections := s.activeConnections + 1 }

/-- `HandleWebSocket` allocation of a fresh `Client` (empty user id,
empty outbound queue, fresh full limiter) followed by `h.register`. -/
def handleConnect (s : HubState) (cid : Nat) : HubState :=
  registerStep { s with heap := insertA s.heap cid default } cid

/-- The `unregister` case of `run` (websocket.go:113-138): if the
client is still registered, remove it, close its send channel, and —
when it is identified — drop its `userIDs` binding, mark the user
offline and broadcast a `status_change` plus a fresh user list.  The
active-connections decrement sits OUTSIDE the membership check in the
source and therefore runs even for an already-removed client. -/
def unregisterStep (s : HubState) (cid : Nat) : HubState × List Effect :=
  if cid ∈ s.clients then
    if (getClient s cid).userID = "" then
      ({ updClient s cid (fun c => { c with sendClosed := true }) with
          clients := s.clients.erase cid,
          activeConnections := s.activeConnections - 1 },
       [Effect.closeSend cid])
    else
      ({ updClient s cid (fun c => { c with sendClosed := true }) with
          clients := s.clients.erase cid,
          userIDs := eraseA s.userIDs ((getClient s cid).userID),
          activeConnections := s.activeConnections - 1 },
       [Effect.closeSend cid, Effect.setOffline ((getClient s cid).userID)]
         ++ broadcastMessageEff
              { type := "status_change", userId := (getClient s cid).userID,
                status := "offline" }
         ++ [Effect.userListBroadcast])
  else
    ({ s with activeConnections := s.activeConnections - 1 }, [])

/-- `Client.close` (websocket.go:181-190): guarded by the `closed`
flag, so the context cancel and transport close run at most once. -/
def closeClient (s : HubState) (cid : Nat) : HubState × List Effect :=
  if (getClient s cid).closed then (s, [])
  else
    (updClient s cid (fun c => { c with closed := true }),
     [Effect.closeTransport cid])

/-- Result of the `broadcast` case of `run`.  `stuck` records the
deadlock the source falls into for a slow consumer: after
`client.close()` it executes `h.unregister <- client`, a send on the
UNBUFFERED `unregister` channel whose only receiver is this very
`run` goroutine — the send can never rendezvous, so the loop blocks
forever with the remaining clients unserved and the slow client still
registered. -/
inductive BroadcastOutcome where
  | done (s : HubState) (effs : List Effect)
  | stuck (s : HubState) (effs : List Effect) (blocked : Nat)
  deriving DecidableEq, Repr

/-- Fan-out over the snapshot of `h.clients`, in iteration order
`order` (Go map iteration order is unspecified; any order is a
possible execution).  A non-blocking enqueue (`select`/`default`)
succeeds exactly when the buffered channel has room. -/
def broadcastGo (frame : List (String × JVal)) :
    List Nat → HubState → List Effect → BroadcastOutcome
  | [], s, effs => BroadcastOutcome.done s effs
  | cid :: rest, s, effs =>
      if (getClient s cid).send.length < sendCap then
        broadcastGo frame rest
          (updClient s cid (fun c => { c with send := c.send ++ [frame] }))
          effs
      else
        let r := closeClient s cid
        BroadcastOutcome.stuck r.1 (effs ++ r.2) cid

/-- The `broadcast` case of `run` (websocket.go:140-151). -/
def broadcastStep (s : HubState) (frame : List (String × JVal)) :
    BroadcastOutcome :=
  broadcastGo frame s.clients s []

/-! ## `readPump` message dispatch (websocket.go:227-352) -/

/-- The `user_join` case: bind the connection to the user id in both
mappings (replacing any previous binding of that user id), remember the
user forever, set it online, start the server-side heartbeat, and
re-broadcast the join frame with `status` forced to `"online"`,
followed by a user-list broadcast. -/
def joinStep (s : HubState) (cid : Nat) (m : WebSocketMessage) :
    HubState × List Effect :=
  let s1 := updClient s cid (fun c => { c with userID := m.userId })
  let s2 :=
    { s1 with
      userIDs := insertA s1.userIDs m.userId cid,
      knownUsers :=
        if m.userId ∈ s1.knownUsers then s1.knownUsers
        else s1.knownUsers ++ [m.userId] }
  (s2,
   [Effect.setOnline m.userId, Effect.startHeartbeat cid]
     ++ broadcastMessageEff { m with status := "online" }
     ++ [Effect.userListBroadcast])

/-- The `switch wsMsg.Type` of `readPump` on a successfully decoded
message.  Types not named in the switch (including `user_list` and
`status_change`) fall through to the default case, which re-broadcasts
the decoded message unchanged. -/
def dispatchMsg (s : HubState) (cid : Nat) (m : WebSocketMessage) :
    HubState × List Effect :=
  let cd := getClient s cid
  if m.type = "user_join" then joinStep s cid m
  else if m.type = "user_leave" then
    if cd.userID = "" then (s, [])
    else
      ({ s with userIDs := eraseA s.userIDs cd.userID },
       [Effect.setOffline cd.userID]
         ++ broadcastMessageEff { m with status := "offline" }
         ++ [Effect.userListBroadcast])
  else if m.type = "message" then
    (s, [Effect.setOnline cd.userID]
          ++ broadcastMessageEff { m with sender := cd.userID })
  else if m.type = "status_request" then (s, [Effect.sendUserList cid])
  else if m.type = "profile_update" then (s, broadcastMessageEff m)
  else if m.type = "heartbeat" then
    (s, if cd.userID = "" then [] else [Effect.setOnline cd.userID])
  else (s, broadcastMessageEff m)

/-- One iteration of the `readPump` loop body on a successfully read
frame, at millisecond timestamp `now`: refresh the sender's presence
when the connection is identified, then consult the rate limiter
(dropping the frame silently when it denies), then decode — a payload
`json.Unmarshal` rejects is re-broadcast as a raw chat-text `message`
— and finally dispatch on the message type.  No path in the body
closes the connection or reports an error to the sender; the loop
always continues to the next read. -/
def processFrame (s : HubState) (cid : Nat) (now : Nat) (f : InFrame) :
    HubState × List Effect :=
  let cd := getClient s cid
  let effs0 := if cd.userID = "" then [] else [Effect.setOnline cd.userID]
  let r := limiterAllow cd now
  let s1 := updClient s cid (fun _ => r.2)
  if !r.1 then (s1, effs0)
  else
    match f with
    | InFrame.malformed raw =>
        (s1, effs0 ++ broadcastMessageEff { type := "message", text := raw })
    | InFrame.obj fields =>
        match decodeFields fields with
        | none =>
            (s1, effs0 ++ broadcastMessageEff
                   { type := "message", text := serializeFields fields })
        | some m =>
            let r2 := dispatchMsg s1 cid m
            (r2.1, effs0 ++ r2.2)

/-! ## User-list builders (websocket.go:483-594) -/

/-- The roster snapshot `h.broadcastUserList` pushes on every periodic
tick (and after joins/leaves): `statuses` is the raw
`GetAllUserStatuses` read from Redis and `profiles` the external
profile lookup's result; the user list is the known-users set.  The
statuses map is forwarded as read — this path never consults
`h.userIDs`. -/
def broadcastUserListMsg (statuses : List (String × String))
    (profiles : List (String × UserProfile)) (s : HubState) :
    WebSocketMessage :=
  { type := "user_list", users := s.knownUsers, statuses := statuses,
    profiles := profiles }

/-- The status override loop of `h.sendUserListWithStatus`
(websocket.go:563-576): every known user with a live `userIDs` entry is
forced to `"online"`; a known user with no store record defaults to
`"offline"`. -/
def sendUserListStatuses (s : HubState)
    (statuses : List (String × String)) : List (String × String) :=
  s.knownUsers.foldl
    (fun acc uid =>
      if (lookupA s.userIDs uid).isSome then insertA acc uid "online"
      else if (lookupA acc uid).isSome then acc
      else insertA acc uid "offline")
    statuses

/-- The reply `h.sendUserListWithStatus` queues on the requesting
client's channel. -/
def sendUserListWithStatusMsg (statuses : List (String × String))
    (s : HubState) : WebSocketMessage :=
  { type := "user_list", users := s.knownUsers,
    statuses := sendUserListStatuses s statuses }

/-! ## Presence store adapter (`StatusService`, src/unnamed/part_005) -/

def userStatusPrefix : String := "user:status:"

/-- `userStatusTTL = 300 * time.Second`, in milliseconds. -/
def userStatusTTLms : Nat := 300000

/-- Result of a Redis `GET`: a value, the `redis.Nil` absent-key
reply, or a transport/server error. -/
inductive RedisGet where
  | found (v : String)
  | nilReply
  | err (e : String)
  deriving DecidableEq, Repr

/-- The TTL-keyed store: key to value and absolute expiry (ms). -/
abbrev Store := List (String × (String × Nat))

/-- A Redis `GET` against the store at time `now`: an expired or
absent key yields `redis.Nil`. -/
def redisGet (st : Store) (now : Nat) (key : String) : RedisGet :=
  match lookupA st key with
  | none => RedisGet.nilReply
  | some (v, expiry) => if now < expiry then RedisGet.found v
                        else RedisGet.nilReply

/-- `StatusService.GetUserStatus` on the result of the underlying
`GET` (part_005:95-111): `redis.Nil` is mapped to `("offline", nil
error)`; a real error is propagated alongside the `"offline"`
default. -/
def getUserStatusOf (g : RedisGet) : String × Option String :=
  match g with
  | RedisGet.nilReply => ("offline", none)
  | RedisGet.err e => ("offline", some e)
  | RedisGet.found v => (v, none)

/-- `StatusService.GetUserStatus` against a TTL store at time `now`. -/
def GetUserStatus (st : Store) (now : Nat) (uid : String) :
    String × Option String :=
  getUserStatusOf (redisGet st now (userStatusPrefix ++ uid))

/-- `StatusService.SetUserOnline` (part_005:37-70), error-free Redis
path: `SET key "online" EX 300` — (re)writes the record with a fresh
TTL. -/
def SetUserOnline (st : Store) (now : Nat) (uid : String) : Store :=
  insertA st (userStatusPrefix ++ uid) ("online", now + userStatusTTLms)

/-! ## Registry traces (register / user_join / unregister) -/

/-- A registry-affecting event: a connection registering
(`HandleWebSocket` + the `register` case of `run`), a connection
identifying itself (the `user_join` case of `readPump`), or a
connection unregistering (the `unregister` case of `run`). -/
inductive REvent where
  | reg (cid : Nat)
  | join (cid : Nat) (uid : String)
  | unreg (cid : Nat)
  deriving DecidableEq, Repr

def applyREvent (s : HubState) : REvent → HubState
  | REvent.reg cid => handleConnect s cid
  | REvent.join cid uid =>
      (joinStep s cid { type := "user_join", userId := uid }).1
  | REvent.unreg cid => (unregisterStep s cid).1

def runTrace (s : HubState) (es : List REvent) : HubState :=
  es.foldl applyREvent s

/-- Mutual consistency of the registry's two mappings, as the claim
states it: every `userIDs` entry points at a registered connection
whose `userID` field names that user, and every registered connection
with a non-empty `userID` has an entry for that user id in
`userIDs`. -/
def consistent (s : HubState) : Prop :=
  (∀ p ∈ s.userIDs, p.2 ∈ s.clients ∧ (getClient s p.2).userID = p.1) ∧
    (∀ cid ∈ s.clients, (getClient s cid).userID ≠ "" →
      (lookupA s.userIDs ((getClient s cid).userID)).isSome)

instance (s : HubState) : Decidable (consistent s) := by
  unfold consistent; infer_instance

/-- Precondition under which an event is a duplicate-free, well-formed
use of the registry: fresh ids register, and a connection identifies
only while anonymous and only with a non-empty user id not currently
bound to any live connection. -/
def okEvent (s : HubState) : REvent → Prop
  | REvent.reg cid => lookupA s.heap cid = none
  | REvent.join cid uid =>
      uid ≠ "" ∧ cid ∈ s.clients ∧ (lookupA s.heap cid).isSome ∧
        (getClient s cid).userID = "" ∧ lookupA s.userIDs uid = none
  | REvent.unreg _ => True

def okTrace : HubState → List REvent → Prop
  | _, [] => True
  | s, e :: rest => okEvent s e ∧ okTrace (applyREvent s e) rest

instance (s : HubState) (e : REvent) : Decidable (okEvent s e) := by
  cases e <;> (unfold okEvent; infer_instance)

instance (s : HubState) (es : List REvent) : Decidable (okTrace s es) := by
  induction es generalizing s with
  | nil => unfold okTrace; infer_instance
  | cons e rest ih =>
      unfold okTrace
      have := ih (applyREvent s e)
      infer_instance

/-! ### Helper lemmas about the state operations -/

theorem lookupA_updA {α β : Type} [DecidableEq α] (l : List (α × β))
    (k k' : α) (f : β → β) :
    lookupA (updA l k f) k'
      = if k = k' then (lookupA l k').map f else lookupA l k' := by
  induction l with
  | nil => simp [updA, lookupA]
  | cons p rest ih =>
      obtain ⟨k₀, v₀⟩ := p
      by_cases h₁ : k = k'
      · subst h₁
        by_cases h₀ : k₀ = k
        · simp [updA, h₀, lookupA, ih]
        · simp [updA, h₀, lookupA, ih]
      · by_cases h₀ : k₀ = k
        · have h₂ : k₀ ≠ k' := fun h => h₁ (h₀.symm.trans h)
          simp [updA, h₀, lookupA, ih, h₁, h₂]
        · by_cases h₂ : k₀ = k'
          · have h₃ : k' ≠ k := fun h => h₀ (h₂.trans h)
            simp [updA, h₀, lookupA, ih, h₁, h₂, h₃]
          · simp [updA, h₀, lookupA, ih, h₁, h₂]

theorem getClient_updClient (s : HubState) (cid cid' : Nat)
    (f : ClientData → ClientData) :
    getClient (updClient s cid f) cid' =
      if cid = cid' then ((lookupA s.heap cid').map f).getD default
      else getClient s cid' := by
  by_cases h : cid = cid' <;>
    simp [getClient, updClient, lookupA_updA, h]

theorem getClient_updClient_mem (s : HubState) (cid : Nat)
    (f : ClientData → ClientData) (h : (lookupA s.heap cid).isSome) :
    getClient (updClient s cid f) cid = f (getClient s cid) := by
  rcases Option.isSome_iff_exists.mp h with ⟨cd, hcd⟩
  rw [getClient_updClient, if_pos rfl]
  simp [hcd, getClient]

theorem getClient_updClient_ne (s : HubState) (cid cid' : Nat)
    (f : ClientData → ClientData) (h : cid ≠ cid') :
    getClient (updClient s cid f) cid' = getClient s cid' := by
  simp [getClient_updClient, h]

theorem updClient_clients (s : HubState) (cid : Nat)
    (f : ClientData → ClientData) : (updClient s cid f).clients = s.clients :=
  rfl

theorem updClient_userIDs (s : HubState) (cid : Nat)
    (f : ClientData → ClientData) : (updClient s cid f).userIDs = s.userIDs :=
  rfl

theorem getClient_updClient_userID (s : HubState) (cid x : Nat)
    (f : ClientData → ClientData) (hf : ∀ c, (f c).userID = c.userID) :
    (getClient (updClient s cid f) x).userID = (getClient s x).userID := by
  rw [getClient_updClient]
  by_cases h : cid = x
  · subst h
    cases hx : lookupA s.heap cid with
    | none => simp [getClient, hx]
    | some cd => simp [getClient, hx, hf]
  · simp [h]

/-! ### The registry-consistency invariant -/

/-- Strengthened induction invariant: the registered-connection list
has no duplicates, every `userIDs` entry names a non-empty user and
points at a registered connection carrying exactly that user id, and
every identified registered connection's user id looks up to exactly
that connection. -/
def Inv (s : HubState) : Prop :=
  s.clients.Nodup ∧
    (∀ p ∈ s.userIDs,
      p.1 ≠ "" ∧ p.2 ∈ s.clients ∧ (getClient s p.2).userID = p.1) ∧
    (∀ cid ∈ s.clients, (getClient s cid).userID ≠ "" →
      lookupA s.userIDs ((getClient s cid).userID) = some cid)

theorem Inv_empty : Inv {} := by
  refine ⟨List.nodup_nil, ?_, ?_⟩ <;> intro p hp <;> simp at hp

theorem Inv_consistent (s : HubState) (h : Inv s) : consistent s := by
  obtain ⟨-, hA, hB⟩ := h
  refine ⟨fun p hp => ⟨(hA p hp).2.1, (hA p hp).2.2⟩, fun cid hc hne => ?_⟩
  rw [hB cid hc hne]
  rfl

theorem Inv_reg (s : HubState) (cid : Nat) (hInv : Inv s)
    (hok : lookupA s.heap cid = none) : Inv (handleConnect s cid) := by
  obtain ⟨hnd, hA, hB⟩ := hInv
  have hget : ∀ x, getClient (handleConnect s cid) x =
      if cid = x then default else getClient s x := by
    intro x
    by_cases h : cid = x
    · subst h
      simp [handleConnect, registerStep, getClient, lookupA_insertA_self]
    · simp [handleConnect, registerStep, getClient,
            lookupA_insertA_ne _ _ _ _ h, h]
  have hcl : (handleConnect s cid).clients =
      if cid ∈ s.clients then s.clients else cid :: s.clients := rfl
  have hui : (handleConnect s cid).userIDs = s.userIDs := rfl
  refine ⟨?_, ?_, ?_⟩
  · rw [hcl]
    by_cases h : cid ∈ s.clients
    · simpa [h] using hnd
    · simpa [h] using hnd.cons h
  · intro p hp
    rw [hui] at hp
    obtain ⟨hne, hmem, hu⟩ := hA p hp
    have hp2 : p.2 ≠ cid := by
      intro h; subst h
      rw [show getClient s p.2 = default by simp [getClient, hok]] at hu
      exact hne hu.symm
    refine ⟨hne, ?_, ?_⟩
    · rw [hcl]; by_cases h : cid ∈ s.clients <;> simp [h, hmem]
    · rw [hget]
      have h' : cid ≠ p.2 := fun hh => hp2 hh.symm
      simp [h', hu]
  · intro c hc hne
    rw [hget] at hne ⊢
    by_cases h : cid = c
    · rw [if_pos h] at hne
      exact absurd rfl hne
    · simp [h] at hne ⊢
      rw [hui]
      rw [hcl] at hc
      have hc' : c ∈ s.clients := by
        by_cases hm : cid ∈ s.clients
        · simpa [hm] using hc
        · simp [hm] at hc
          rcases hc with hc | hc
          · exact absurd hc.symm h
          · exact hc
      exact hB c hc' hne

theorem Inv_join (s : HubState) (cid : Nat) (uid : String) (hInv : Inv s)
    (huid : uid ≠ "") (hc : cid ∈ s.clients)
    (hheap : (lookupA s.heap cid).isSome)
    (hanon : (getClient s cid).userID = "")
    (hnb : lookupA s.userIDs uid = none) :
    Inv (joinStep s cid { type := "user_join", userId := uid }).1 := by
  obtain ⟨hnd, hA, hB⟩ := hInv
  set s' := (joinStep s cid { type := "user_join", userId := uid }).1 with hs'
  have hget : ∀ x, getClient s' x =
      if cid = x then { getClient s cid with userID := uid }
      else getClient s x := by
    intro x
    by_cases h : cid = x
    · subst h
      have := getClient_updClient_mem s cid
        (fun c => { c with userID := uid }) hheap
      simpa [hs', joinStep, getClient] using this
    · have := getClient_updClient_ne s cid x
        (fun c => { c with userID := uid }) h
      simpa [hs', joinStep, getClient, h] using this
  have hcl : s'.clients = s.clients := rfl
  have hui : s'.userIDs = insertA s.userIDs uid cid := rfl
  refine ⟨by rw [hcl]; exact hnd, ?_, ?_⟩
  · intro p hp
    rw [hui] at hp
    rcases mem_insertA _ _ _ _ hp with h | ⟨hp', hpne⟩
    · subst h
      refine ⟨huid, by rw [hcl]; exact hc, ?_⟩
      rw [hget]; simp
    · obtain ⟨hne, hmem, hu⟩ := hA p hp'
      have hp2 : p.2 ≠ cid := by
        intro h; subst h
        rw [hanon] at hu
        exact hne hu.symm
      refine ⟨hne, by rw [hcl]; exact hmem, ?_⟩
      rw [hget]
      have h' : cid ≠ p.2 := fun hh => hp2 hh.symm
      simp [h', hu]
  · intro c hc' hne
    rw [hcl] at hc'
    rw [hget] at hne ⊢
    by_cases h : cid = c
    · simp [h] at hne ⊢
      rw [hui]
      subst h
      exact lookupA_insertA_self _ _ _
    · simp [h] at hne ⊢
      rw [hui]
      have hB' := hB c hc' hne
      have hu' : (getClient s c).userID ≠ uid := by
        intro heq
        rw [heq] at hB'
        rw [hnb] at hB'
        exact Option.noConfusion hB'
      rw [lookupA_insertA_ne _ _ _ _ (fun h' => hu' h'.symm)]
      exact hB'

theorem unregisterStep_clients (s : HubState) (cid : Nat) :
    (unregisterStep s cid).1.clients =
      if cid ∈ s.clients then s.clients.erase cid else s.clients := by
  by_cases hmem : cid ∈ s.clients
  · by_cases hid : (getClient s cid).userID = "" <;>
      simp [unregisterStep, hmem, hid]
  · simp [unregisterStep, hmem]

theorem unregisterStep_userIDs (s : HubState) (cid : Nat) :
    (unregisterStep s cid).1.userIDs =
      if cid ∈ s.clients ∧ (getClient s cid).userID ≠ "" then
        eraseA s.userIDs ((getClient s cid).userID)
      else s.userIDs := by
  by_cases hmem : cid ∈ s.clients
  · by_cases hid : (getClient s cid).userID = "" <;>
      simp [unregisterStep, hmem, hid, updClient]
  · simp [unregisterStep, hmem]

theorem getClient_unregisterStep_userID (s : HubState) (cid x : Nat) :
    (getClient (unregisterStep s cid).1 x).userID = (getClient s x).userID := by
  have h := getClient_updClient_userID s cid x
    (fun c => { c with sendClosed := true }) (fun _ => rfl)
  by_cases hmem : cid ∈ s.clients
  · by_cases hid : (getClient s cid).userID = ""
    · unfold unregisterStep
      rw [if_pos hmem, if_pos hid]
      exact h
    · unfold unregisterStep
      rw [if_pos hmem, if_neg hid]
      exact h
  · unfold unregisterStep
    rw [if_neg hmem]
    rfl

theorem Inv_unreg (s : HubState) (cid : Nat) (hInv : Inv s) :
    Inv (unregisterStep s cid).1 := by
  obtain ⟨hnd, hA, hB⟩ := hInv
  by_cases hmem : cid ∈ s.clients
  · have hcl : (unregisterStep s cid).1.clients = s.clients.erase cid := by
      rw [unregisterStep_clients]; simp [hmem]
    by_cases hid : (getClient s cid).userID = ""
    · have hui : (unregisterStep s cid).1.userIDs = s.userIDs := by
        rw [unregisterStep_userIDs]; simp [hid]
      refine ⟨by rw [hcl]; exact hnd.erase cid, ?_, ?_⟩
      · intro p hp
        rw [hui] at hp
        obtain ⟨hne, hm, hu⟩ := hA p hp
        have hp2 : p.2 ≠ cid := fun h => hne (by rw [← hu, h, hid])
        refine ⟨hne, ?_, ?_⟩
        · rw [hcl]; exact (List.mem_erase_of_ne hp2).mpr hm
        · rw [getClient_unregisterStep_userID]; exact hu
      · intro c hc hne
        rw [getClient_unregisterStep_userID] at hne ⊢
        rw [hui]
        rw [hcl] at hc
        exact hB c (List.mem_of_mem_erase hc) hne
    · have hui : (unregisterStep s cid).1.userIDs =
          eraseA s.userIDs ((getClient s cid).userID) := by
        rw [unregisterStep_userIDs]; simp [hmem, hid]
      refine ⟨by rw [hcl]; exact hnd.erase cid, ?_, ?_⟩
      · intro p hp
        rw [hui] at hp
        obtain ⟨hp', hpne⟩ := mem_eraseA _ _ _ hp
        obtain ⟨hne, hm, hu⟩ := hA p hp'
        have hp2 : p.2 ≠ cid := fun h => hpne (by rw [← hu, h])
        refine ⟨hne, ?_, ?_⟩
        · rw [hcl]; exact (List.mem_erase_of_ne hp2).mpr hm
        · rw [getClient_unregisterStep_userID]; exact hu
      · intro c hc hne
        rw [getClient_unregisterStep_userID] at hne ⊢
        rw [hcl] at hc
        obtain ⟨hcne, hc'⟩ := hnd.mem_erase_iff.mp hc
        have hB' := hB c hc' hne
        have hu' : (getClient s c).userID ≠ (getClient s cid).userID := by
          intro heq
          rw [heq, hB cid hmem hid] at hB'
          exact hcne (Option.some.inj hB').symm
        rw [hui, lookupA_eraseA, if_neg (fun h => hu' h.symm)]
        exact hB'
  · have hcl : (unregisterStep s cid).1.clients = s.clients := by
      rw [unregisterStep_clients]; simp [hmem]
    have hui : (unregisterStep s cid).1.userIDs = s.userIDs := by
      rw [unregisterStep_userIDs]; simp [hmem]
    refine ⟨by rw [hcl]; exact hnd, ?_, ?_⟩
    · intro p hp
      rw [hui] at hp
      obtain ⟨hne, hm, hu⟩ := hA p hp
      refine ⟨hne, by rw [hcl]; exact hm, ?_⟩
      rw [getClient_unregisterStep_userID]; exact hu
    · intro c hc hne
      rw [getClient_unregisterStep_userID] at hne ⊢
      rw [hui]
      rw [hcl] at hc
      exact hB c hc hne

theorem Inv_applyREvent (s : HubState) (e : REvent) (hInv : Inv s)
    (hok : okEvent s e) : Inv (applyREvent s e) := by
  cases e with
  | reg cid => exact Inv_reg s cid hInv hok
  | join cid uid =>
      obtain ⟨h1, h2, h3, h4, h5⟩ := hok
      exact Inv_join s cid uid hInv h1 h2 h3 h4 h5
  | unreg cid => exact Inv_unreg s cid hInv

theorem Inv_runTrace (s : HubState) (es : List REvent) (hInv : Inv s)
    (hok : okTrace s es) : Inv (runTrace s es) := by
  induction es generalizing s with
  | nil => exact hInv
  | cons e rest ih =>
      obtain ⟨h1, h2⟩ := hok
      exact ih (applyREvent s e) (Inv_applyREvent s e hInv h1) h2

/-- C1: the claim asserts that registry consistency survives every
sequence of register / user_join / unregister events, in particular a
second connection identifying with an already-bound user id followed by
the first connection unregistering.  The code refutes it: `unregister`
deletes `h.userIDs[client.userID]` unconditionally, so when connection 1
(still carrying `userID = "u"`) unregisters after connection 2 took over
`"u"`, connection 2's binding is deleted — connection 2 is then a
registered, identified client with no `userIDs` entry. -/
theorem c1_counterexample :
    ¬ consistent (runTrace {} [REvent.reg 1, REvent.join 1 "u",
      REvent.reg 2, REvent.join 2 "u", REvent.unreg 1]) := by
  decide

/-- C1 (amended): for every sequence of register, user-identification
(user_join) and unregister events in which no two live connections
identify with the same user id (each `user_join` binds a non-empty user
id that is not currently bound, on a registered, still-anonymous
connection), the registry's two mappings remain mutually consistent:
every user-id-to-connection entry points at a registered connection
whose `userID` field names that user id, and every registered
connection with a non-empty `userID` has an entry in the
user-to-connection mapping. -/
theorem c1_registry_mappings_consistent (es : List REvent)
    (hok : okTrace {} es) : consistent (runTrace {} es) :=
  Inv_consistent _ (Inv_runTrace {} es Inv_empty hok)

theorem c1_registry_mappings_consistent_witness :
    okTrace {} [REvent.reg 1, REvent.join 1 "u", REvent.reg 2,
        REvent.join 2 "v", REvent.unreg 1] ∧
      consistent (runTrace {} [REvent.reg 1, REvent.join 1 "u",
        REvent.reg 2, REvent.join 2 "v", REvent.unreg 1]) :=
  ⟨by decide, c1_registry_mappings_consistent _ (by decide)⟩

/-- C8: whenever the presence adapter's get-status finds no live record
for the user — the key is absent from the store, or present but already
expired at the time of the read — `GetUserStatus` returns the status
`"offline"` with no error: an absent record is never reported as an
error to the caller. -/
theorem c8_missing_record_reported_offline (st : Store) (now : Nat)
    (uid : String)
    (h : lookupA st (userStatusPrefix ++ uid) = none ∨
      ∃ v e, lookupA st (userStatusPrefix ++ uid) = some (v, e) ∧ e ≤ now) :
    GetUserStatus st now uid = ("offline", none) := by
  rcases h with h | ⟨v, e, h, he⟩
  · unfold GetUserStatus redisGet
    rw [h]
    rfl
  · have hlt : ¬ now < e := by omega
    simp [GetUserStatus, redisGet, h, hlt, getUserStatusOf]

theorem c8_missing_record_reported_offline_witness :
    GetUserStatus [("user:status:alice", ("online", 100))] 150 "alice"
        = ("offline", none) ∧
      GetUserStatus [("user:status:alice", ("online", 100))] 150 "bob"
        = ("offline", none) :=
  ⟨c8_missing_record_reported_offline _ 150 "alice"
      (Or.inr ⟨"online", 100, by decide, by decide⟩),
   c8_missing_record_reported_offline _ 150 "bob" (Or.inl (by decide))⟩

/-! ### Token-bucket accounting (C5) -/

/-- Number of frames of a timestamped arrival sequence that pass the
rate limiter (websocket.go:247: `if !c.limiter.Allow() { continue }`). -/
def allowedCount (cd : ClientData) : List Nat → Nat
  | [] => 0
  | t :: ts =>
      (if (limiterAllow cd t).1 then 1 else 0)
        + allowedCount (limiterAllow cd t).2 ts

/-- Token-bucket accounting: across a sorted arrival sequence bounded
by `b`, each allowed frame consumes a full token (200 units) and refill
is bounded by elapsed time, so the allowed count is bounded by the
initial tokens plus the window length. -/
theorem allowedCount_bound (ts : List Nat) (cd : ClientData) (b : Nat)
    (hsorted : ts.Pairwise (· ≤ ·))
    (hlb : ∀ t ∈ ts, cd.limiterLast ≤ t)
    (hub : ∀ t ∈ ts, t ≤ b) :
    allowedCount cd ts * burstUnits
      ≤ cd.limiterTokens + (b - cd.limiterLast) := by
  induction ts generalizing cd with
  | nil => simp [allowedCount]
  | cons t ts ih =>
      have hlast : cd.limiterLast ≤ t := hlb t (List.mem_cons_self _ _)
      have htb : t ≤ b := hub t (List.mem_cons_self _ _)
      have hsorted' : ts.Pairwise (· ≤ ·) := hsorted.of_cons
      have hhead : ∀ u ∈ ts, t ≤ u := fun u hu =>
        (List.pairwise_cons.mp hsorted).1 u hu
      have hub' : ∀ u ∈ ts, u ≤ b := fun u hu =>
        hub u (List.mem_cons_of_mem _ hu)
      have hmin : min burstUnits (cd.limiterTokens + (t - cd.limiterLast))
          ≤ cd.limiterTokens + (t - cd.limiterLast) := min_le_right _ _
      by_cases hall : burstUnits
          ≤ min burstUnits (cd.limiterTokens + (t - cd.limiterLast))
      · have hred : allowedCount cd (t :: ts)
            = 1 + allowedCount
                { cd with
                  limiterTokens :=
                    min burstUnits (cd.limiterTokens + (t - cd.limiterLast))
                      - burstUnits,
                  limiterLast := t } ts := by
          simp [allowedCount, limiterAllow, hall]
        have ih' := ih
          { cd with
            limiterTokens :=
              min burstUnits (cd.limiterTokens + (t - cd.limiterLast))
                - burstUnits,
            limiterLast := t } hsorted' hhead hub'
        rw [hred]
        dsimp only at ih'
        simp only [burstUnits] at hall hmin ih' ⊢
        omega
      · have hred : allowedCount cd (t :: ts)
            = allowedCount
                { cd with
                  limiterTokens :=
                    min burstUnits (cd.limiterTokens + (t - cd.limiterLast)),
                  limiterLast := t } ts := by
          simp [allowedCount, limiterAllow, hall]
        have ih' := ih
          { cd with
            limiterTokens :=
              min burstUnits (cd.limiterTokens + (t - cd.limiterLast)),
            limiterLast := t } hsorted' hhead hub'
        rw [hred]
        dsimp only at ih'
        simp only [burstUnits] at hall hmin ih' ⊢
        omega

/-! ### `processFrame` helper lemmas -/

theorem getClient_updClient_field {γ : Type} (g : ClientData → γ)
    (s : HubState) (cid x : Nat) (f : ClientData → ClientData)
    (hf : ∀ c, g (f c) = g c) :
    g (getClient (updClient s cid f) x) = g (getClient s x) := by
  rw [getClient_updClient]
  by_cases h : cid = x
  · subst h
    cases hx : lookupA s.heap cid with
    | none => simp [getClient, hx]
    | some cd => simp [getClient, hx, hf]
  · simp [h]

theorem limiterAllow_preserves_closed (cd : ClientData) (now : Nat) :
    (limiterAllow cd now).2.closed = cd.closed := by
  by_cases h : burstUnits
      ≤ min burstUnits (cd.limiterTokens + (now - cd.limiterLast)) <;>
    simp [limiterAllow, h]

theorem limiterAllow_preserves_userID (cd : ClientData) (now : Nat) :
    (limiterAllow cd now).2.userID = cd.userID := by
  by_cases h : burstUnits
      ≤ min burstUnits (cd.limiterTokens + (now - cd.limiterLast)) <;>
    simp [limiterAllow, h]

/-- Reading the client's user id after the limiter-state write-back
sees the unchanged user id. -/
theorem updLimiter_userID (s : HubState) (cid now x : Nat) :
    (getClient
        (updClient s cid (fun _ => (limiterAllow (getClient s cid) now).2))
        x).userID
      = (getClient s x).userID := by
  rw [getClient_updClient]
  by_cases h : cid = x
  · subst h
    cases hx : lookupA s.heap cid with
    | none => simp [getClient, hx]
    | some cd =>
        have hc := limiterAllow_preserves_userID (getClient s cid) now
        simp [getClient, hx] at hc ⊢
        exact hc
  · simp [h]

/-- A frame the rate limiter denies is dropped silently: the only
state change is the limiter bookkeeping and the only effect is the
presence refresh that `readPump` performs before consulting the
limiter. -/
theorem processFrame_denied (s : HubState) (cid now : Nat) (f : InFrame)
    (h : (limiterAllow (getClient s cid) now).1 = false) :
    processFrame s cid now f =
      (updClient s cid (fun _ => (limiterAllow (getClient s cid) now).2),
       if (getClient s cid).userID = "" then []
       else [Effect.setOnline (getClient s cid).userID]) := by
  simp [processFrame, h]

/-- A payload `json.Unmarshal` rejects is re-broadcast as a raw
chat-text message; nothing else changes beyond the limiter state. -/
theorem processFrame_malformed (s : HubState) (cid now : Nat) (raw : String)
    (h : (limiterAllow (getClient s cid) now).1 = true) :
    processFrame s cid now (InFrame.malformed raw) =
      (updClient s cid (fun _ => (limiterAllow (getClient s cid) now).2),
       (if (getClient s cid).userID = "" then []
        else [Effect.setOnline (getClient s cid).userID])
         ++ [Effect.enqueueBroadcast
               (marshalMsg { type := "message", text := raw })]) := by
  simp [processFrame, h, broadcastMessageEff]

/-- A JSON object that decodes into no well-formed `WebSocketMessage`
(a recognised key of the wrong shape) takes the same raw-text fallback,
with the frame's wire text as the message body. -/
theorem processFrame_decode_failure (s : HubState) (cid now : Nat)
    (fields : List (String × JVal))
    (h : (limiterAllow (getClient s cid) now).1 = true)
    (hdec : decodeFields fields = none) :
    processFrame s cid now (InFrame.obj fields) =
      (updClient s cid (fun _ => (limiterAllow (getClient s cid) now).2),
       (if (getClient s cid).userID = "" then []
        else [Effect.setOnline (getClient s cid).userID])
         ++ [Effect.enqueueBroadcast
               (marshalMsg
                 { type := "message", text := serializeFields fields })]) := by
  simp [processFrame, h, hdec, broadcastMessageEff]

/-- C5: inbound frames pass a token-bucket limiter of rate 5/sec and
burst 1; any arrival sequence confined to a 200 ms window — in
particular 20 frames in under 200 ms — yields at most 6 frames past
the limiter into the broadcast stage, and a frame the limiter denies
is dropped silently: no broadcast is queued, no error is sent to the
sender, the connection is not closed, and only the limiter bookkeeping
changes. -/
theorem c5_rate_limit :
    (∀ (cd : ClientData) (ts : List Nat),
        ts.Pairwise (· ≤ ·) →
        (∀ t ∈ ts, cd.limiterLast ≤ t ∧ t ≤ cd.limiterLast + 200) →
        cd.limiterTokens ≤ burstUnits →
        allowedCount cd ts ≤ 6) ∧
    (∀ (s : HubState) (cid now : Nat) (f : InFrame),
        (limiterAllow (getClient s cid) now).1 = false →
        processFrame s cid now f =
          (updClient s cid (fun _ => (limiterAllow (getClient s cid) now).2),
           if (getClient s cid).userID = "" then []
           else [Effect.setOnline (getClient s cid).userID])) := by
  constructor
  · intro cd ts hs hb htok
    have hbound := allowedCount_bound ts cd (cd.limiterLast + 200) hs
      (fun t ht => (hb t ht).1) (fun t ht => (hb t ht).2)
    simp only [burstUnits] at hbound htok
    omega
  · intro s cid now f hdeny
    exact processFrame_denied s cid now f hdeny

/-- A hub with one identified client whose limiter bucket is empty. -/
def denyHub : HubState :=
  { heap := [(1, { userID := "a", limiterTokens := 0, limiterLast := 0 })],
    clients := [1], userIDs := [("a", 1)], knownUsers := ["a"],
    activeConnections := 1 }

/-- Twenty arrival timestamps inside a 200 ms window. -/
def burst20 : List Nat :=
  [0, 10, 20, 30, 40, 50, 60, 70, 80, 90,
   100, 110, 120, 130, 140, 150, 160, 170, 180, 190]

theorem updLimiter_closed (s : HubState) (cid now x : Nat) :
    (getClient
        (updClient s cid (fun _ => (limiterAllow (getClient s cid) now).2))
        x).closed
      = (getClient s x).closed := by
  rw [getClient_updClient]
  by_cases h : cid = x
  · subst h
    cases hx : lookupA s.heap cid with
    | none => simp [getClient, hx]
    | some cd =>
        have hc := limiterAllow_preserves_closed (getClient s cid) now
        simp [getClient, hx] at hc ⊢
        exact hc
  · simp [h]

theorem c5_rate_limit_witness :
    allowedCount {} burst20 ≤ 6 ∧
      processFrame denyHub 1 5 (InFrame.obj [("type", JVal.s "message")]) =
        (updClient denyHub 1
           (fun _ => (limiterAllow (getClient denyHub 1) 5).2),
         if (getClient denyHub 1).userID = "" then []
         else [Effect.setOnline (getClient denyHub 1).userID]) :=
  ⟨c5_rate_limit.1 {} burst20 (by decide) (by decide) (by decide),
   c5_rate_limit.2 denyHub 1 5 (InFrame.obj [("type", JVal.s "message")])
     (by decide)⟩

/-- C6: a payload that fails to decode as a well-formed typed message —
bytes `json.Unmarshal` rejects, or a JSON object with a recognised key
of the wrong shape — is recovered locally: the reader broadcasts the
raw bytes as a room-wide chat-text message (`type "message"` with the
raw payload as `text`) and continues; the connection's transport-closed
flag is untouched, no close or unregister effect is produced, and no
error frame is queued for the sender. -/
theorem c6_decode_fault_raw_text_fallback (s : HubState) (cid now : Nat)
    (hallow : (limiterAllow (getClient s cid) now).1 = true) :
    (∀ raw : String,
      processFrame s cid now (InFrame.malformed raw) =
        (updClient s cid (fun _ => (limiterAllow (getClient s cid) now).2),
         (if (getClient s cid).userID = "" then []
          else [Effect.setOnline (getClient s cid).userID])
           ++ [Effect.enqueueBroadcast
                 (marshalMsg { type := "message", text := raw })])) ∧
    (∀ fields : List (String × JVal), decodeFields fields = none →
      processFrame s cid now (InFrame.obj fields) =
        (updClient s cid (fun _ => (limiterAllow (getClient s cid) now).2),
         (if (getClient s cid).userID = "" then []
          else [Effect.setOnline (getClient s cid).userID])
           ++ [Effect.enqueueBroadcast
                 (marshalMsg
                   { type := "message",
                     text := serializeFields fields })])) ∧
    (getClient
        (updClient s cid (fun _ => (limiterAllow (getClient s cid) now).2))
        cid).closed
      = (getClient s cid).closed :=
  ⟨fun raw => processFrame_malformed s cid now raw hallow,
   fun fields hdec => processFrame_decode_failure s cid now fields hallow hdec,
   updLimiter_closed s cid now cid⟩

/-- A hub with two identified clients whose limiters are fresh and
full. -/
def freshHub : HubState :=
  { heap := [(1, { userID := "a" }), (2, { userID := "b" })],
    clients := [1, 2], userIDs := [("a", 1), ("b", 2)],
    knownUsers := ["a", "b"], activeConnections := 2 }

theorem c6_decode_fault_raw_text_fallback_witness :
    processFrame freshHub 1 0 (InFrame.malformed "not json") =
        (updClient freshHub 1
           (fun _ => (limiterAllow (getClient freshHub 1) 0).2),
         (if (getClient freshHub 1).userID = "" then []
          else [Effect.setOnline (getClient freshHub 1).userID])
           ++ [Effect.enqueueBroadcast
                 (marshalMsg { type := "message", text := "not json" })]) ∧
      decodeFields [("type", JVal.arr [])] = none :=
  ⟨(c6_decode_fault_raw_text_fallback freshHub 1 0 (by decide)).1 "not json",
   by decide⟩

/-- C10: on every frame read on an identified connection, `readPump`
refreshes the user's presence (set-online, a fresh TTL) BEFORE
consulting the rate limiter: the first effect of processing any frame
is the presence refresh, and when the limiter then denies the frame,
that refresh is still the (only) effect while the connection stays
open — a client flooding above the limit keeps its presence record
alive and its connection open while its excess frames are
discarded. -/
theorem c10_presence_refresh_precedes_limiter (s : HubState)
    (cid now : Nat) (f : InFrame)
    (hid : (getClient s cid).userID ≠ "") :
    (processFrame s cid now f).2.head?
        = some (Effect.setOnline (getClient s cid).userID) ∧
    ((limiterAllow (getClient s cid) now).1 = false →
      (processFrame s cid now f).2
          = [Effect.setOnline (getClient s cid).userID] ∧
      (getClient (processFrame s cid now f).1 cid).closed
          = (getClient s cid).closed) := by
  constructor
  · simp only [processFrame]
    split
    · simp [hid]
    · cases f with
      | malformed raw => simp [hid, broadcastMessageEff]
      | obj fields =>
          cases hdec : decodeFields fields with
          | none => simp [hid, hdec, broadcastMessageEff]
          | some m => simp [hid, hdec]
  · intro hdeny
    rw [processFrame_denied s cid now f hdeny]
    refine ⟨by simp [hid], ?_⟩
    exact updLimiter_closed s cid now cid

theorem c10_presence_refresh_precedes_limiter_witness :
    (getClient denyHub 1).userID ≠ "" ∧
      (processFrame denyHub 1 5 (InFrame.malformed "x")).2
        = [Effect.setOnline (getClient denyHub 1).userID] :=
  ⟨by decide,
   ((c10_presence_refresh_precedes_limiter denyHub 1 5
       (InFrame.malformed "x") (by decide)).2 (by decide)).1⟩

/-! ## Fan-out properties of the broadcast case (C2, C3, C9) -/

def outcomeState : BroadcastOutcome → HubState
  | BroadcastOutcome.done s _ => s
  | BroadcastOutcome.stuck s _ _ => s

def outcomeStuck : BroadcastOutcome → Bool
  | BroadcastOutcome.done _ _ => false
  | BroadcastOutcome.stuck _ _ _ => true

theorem isSome_lookupA_updClient (s : HubState) (cid x : Nat)
    (f : ClientData → ClientData) :
    (lookupA (updClient s cid f).heap x).isSome
      = (lookupA s.heap x).isSome := by
  show (lookupA (updA s.heap cid f) x).isSome = _
  rw [lookupA_updA]
  by_cases h : cid = x <;> simp [h]

/-- When every recipient's buffered channel has room, the fan-out loop
completes and appends the frame to every registered client's queue,
leaving everything else untouched. -/
theorem broadcastGo_all_delivered (frame : List (String × JVal))
    (order : List Nat) (s : HubState) (effs : List Effect)
    (hnd : order.Nodup)
    (hheap : ∀ cid ∈ order, (lookupA s.heap cid).isSome)
    (hroom : ∀ cid ∈ order, (getClient s cid).send.length < sendCap) :
    ∃ s', broadcastGo frame order s effs = BroadcastOutcome.done s' effs ∧
      (∀ cid ∈ order,
        (getClient s' cid).send = (getClient s cid).send ++ [frame]) ∧
      (∀ cid, cid ∉ order → getClient s' cid = getClient s cid) ∧
      s'.clients = s.clients ∧ s'.userIDs = s.userIDs := by
  induction order generalizing s with
  | nil => exact ⟨s, rfl, by simp, fun cid _ => rfl, rfl, rfl⟩
  | cons cid rest ih =>
      have hcidroom := hroom cid (List.mem_cons_self _ _)
      have hcidheap := hheap cid (List.mem_cons_self _ _)
      have hnd' : rest.Nodup := hnd.of_cons
      have hcidrest : cid ∉ rest := (List.nodup_cons.mp hnd).1
      have hupd := getClient_updClient_mem s cid
        (fun c => { c with send := c.send ++ [frame] }) hcidheap
      have hheap1 : ∀ x ∈ rest,
          (lookupA (updClient s cid
            (fun c => { c with send := c.send ++ [frame] })).heap x).isSome := by
        intro x hx
        rw [isSome_lookupA_updClient]
        exact hheap x (List.mem_cons_of_mem _ hx)
      have hroom1 : ∀ x ∈ rest,
          (getClient (updClient s cid
            (fun c => { c with send := c.send ++ [frame] })) x).send.length
              < sendCap := by
        intro x hx
        have hne : cid ≠ x := fun h => hcidrest (h ▸ hx)
        rw [getClient_updClient_ne _ _ _ _ hne]
        exact hroom x (List.mem_cons_of_mem _ hx)
      obtain ⟨s', h1, h2, h3, h4, h5⟩ :=
        ih (updClient s cid (fun c => { c with send := c.send ++ [frame] }))
          hnd' hheap1 hroom1
      refine ⟨s', ?_, ?_, ?_, ?_, ?_⟩
      · simp only [broadcastGo]
        rw [if_pos hcidroom]
        exact h1
      · intro x hx
        rcases List.mem_cons.mp hx with hx | hx
        · subst hx
          rw [h3 x hcidrest, hupd]
        · have hne : cid ≠ x := fun h => hcidrest (h ▸ hx)
          rw [h2 x hx, getClient_updClient_ne _ _ _ _ hne]
      · intro x hx
        have hx1 : x ≠ cid := fun h => hx (h ▸ List.mem_cons_self _ _)
        have hx2 : x ∉ rest := fun h => hx (List.mem_cons_of_mem _ h)
        rw [h3 x hx2, getClient_updClient_ne _ _ _ _ (fun h => hx1 h.symm)]
      · rw [h4]; rfl
      · rw [h5]; rfl

/-- A hub whose first client's outbound channel is full (256 queued
frames) while the second client's is empty. -/
def slowHub : HubState :=
  { heap := [(1, { userID := "a",
                   send := List.replicate 256 [("type", JVal.s "x")] }),
             (2, { userID := "b" })],
    clients := [1, 2], userIDs := [("a", 1), ("b", 2)],
    knownUsers := ["a", "b"], activeConnections := 2 }

def bmsgC2 : List (String × JVal) := [("type", JVal.s "y")]

set_option maxRecDepth 4000 in
/-- C2 (code evaluated at the failing input): broadcasting to a hub
whose first-iterated client has a full queue closes that client's
transport but then blocks forever on `h.unregister <- client` — a send
on the unbuffered `unregister` channel whose only receiver is the
`run` goroutine executing this very branch.  The slow client is never
removed from the registry (it is still in `clients` of the blocked
state) and the remaining client never receives the broadcast, contrary
to the claim. -/
theorem c2_slow_consumer_engine_deadlock :
    outcomeStuck (broadcastStep slowHub bmsgC2) = true ∧
      1 ∈ (outcomeState (broadcastStep slowHub bmsgC2)).clients ∧
      bmsgC2 ∉ (getClient (outcomeState (broadcastStep slowHub bmsgC2)) 1).send ∧
      bmsgC2 ∉ (getClient (outcomeState (broadcastStep slowHub bmsgC2)) 2).send ∧
      (getClient (outcomeState (broadcastStep slowHub bmsgC2)) 1).closed
        = true := by
  decide

/-- C3: the claim asserts a frame from connection A is never enqueued
onto A's own outbound queue, and that the sender field is injected for
both `message` and `profile_update` frames.  The code refutes both: the
fan-out loop (websocket.go:142) iterates over ALL clients including
the sender, so A's own queue receives the broadcast; and the
`profile_update` case (websocket.go:332-335) broadcasts the frame
without setting `Sender`. -/
theorem c3_counterexample :
    Effect.enqueueBroadcast
        (marshalMsg { type := "message", text := "hi", sender := "a" })
        ∈ (processFrame freshHub 1 0
            (InFrame.obj [("type", JVal.s "message"),
              ("text", JVal.s "hi")])).2 ∧
      marshalMsg { type := "message", text := "hi", sender := "a" }
        ∈ (getClient (outcomeState (broadcastStep
            (processFrame freshHub 1 0
              (InFrame.obj [("type", JVal.s "message"),
                ("text", JVal.s "hi")])).1
            (marshalMsg
              { type := "message", text := "hi", sender := "a" }))) 1).send ∧
      (processFrame freshHub 1 0
          (InFrame.obj [("type", JVal.s "profile_update")])).2
        = [Effect.setOnline "a",
           Effect.enqueueBroadcast [("type", JVal.s "profile_update")]] := by
  decide

/-- C3 (amended): a `message` frame from an identified connection A is
queued for broadcast as the re-marshalled decoded message with the
`sender` field set to A's user id, and a `profile_update` frame is
queued unchanged (no sender injection); the engine then delivers the
queued frame to the outbound queue of EVERY live connection with queue
room — including A's own. -/
theorem c3_frames_fanout_to_all_connections :
    (∀ (s : HubState) (cid now : Nat) (fields : List (String × JVal))
        (m : WebSocketMessage),
      (limiterAllow (getClient s cid) now).1 = true →
      decodeFields fields = some m →
      (getClient s cid).userID ≠ "" →
      (m.type = "message" →
        (processFrame s cid now (InFrame.obj fields)).2 =
          [Effect.setOnline (getClient s cid).userID,
           Effect.setOnline (getClient s cid).userID,
           Effect.setOnline (getClient s cid).userID,
           Effect.enqueueBroadcast
             (marshalMsg { m with sender := (getClient s cid).userID })]) ∧
      (m.type = "profile_update" →
        (processFrame s cid now (InFrame.obj fields)).2 =
          [Effect.setOnline (getClient s cid).userID]
            ++ (if m.sender = "" then [] else [Effect.setOnline m.sender])
            ++ [Effect.enqueueBroadcast (marshalMsg m)])) ∧
    (∀ (s : HubState) (f : List (String × JVal)),
      s.clients.Nodup →
      (∀ c ∈ s.clients, (lookupA s.heap c).isSome) →
      (∀ c ∈ s.clients, (getClient s c).send.length < sendCap) →
      ∃ s', broadcastStep s f = BroadcastOutcome.done s' [] ∧
        ∀ c ∈ s.clients,
          (getClient s' c).send = (getClient s c).send ++ [f]) := by
  constructor
  · intro s cid now fields m hallow hdec hid
    constructor
    · intro hty
      simp [processFrame, hallow, hdec, dispatchMsg, hty, hid,
        broadcastMessageEff, updLimiter_userID]
    · intro hty
      simp [processFrame, hallow, hdec, dispatchMsg, hty, hid,
        broadcastMessageEff, updLimiter_userID]
  · intro s f hnd hheap hroom
    obtain ⟨s', h1, h2, -, -, -⟩ :=
      broadcastGo_all_delivered f s.clients s [] hnd hheap hroom
    exact ⟨s', h1, h2⟩

theorem c3_frames_fanout_to_all_connections_witness :
    (processFrame freshHub 1 0
        (InFrame.obj [("type", JVal.s "message"), ("text", JVal.s "hi")])).2
      = [Effect.setOnline (getClient freshHub 1).userID,
         Effect.setOnline (getClient freshHub 1).userID,
         Effect.setOnline (getClient freshHub 1).userID,
         Effect.enqueueBroadcast
           (marshalMsg
             { type := "message", text := "hi",
               sender := (getClient freshHub 1).userID })] ∧
      ∃ s', broadcastStep freshHub [("type", JVal.s "hello")]
          = BroadcastOutcome.done s' [] ∧
        ∀ c ∈ freshHub.clients,
          (getClient s' c).send
            = (getClient freshHub c).send ++ [[("type", JVal.s "hello")]] :=
  ⟨((c3_frames_fanout_to_all_connections.1 freshHub 1 0
      [("type", JVal.s "message"), ("text", JVal.s "hi")]
      { type := "message", text := "hi" }
      (by decide) (by decide) (by decide)).1 rfl),
   c3_frames_fanout_to_all_connections.2 freshHub [("type", JVal.s "hello")]
     (by decide) (by decide) (by decide)⟩

/-- C9: the claim asserts byte-for-byte verbatim forwarding of frames
with unrecognised types.  The code decodes the frame into the
`WebSocketMessage` struct and re-marshals it, so any field outside the
struct's schema is dropped: the delivered bytes differ from the
received bytes. -/
theorem c9_counterexample :
    (processFrame freshHub 1 0
        (InFrame.obj [("type", JVal.s "custom"), ("extra", JVal.s "x")])).2
      = [Effect.setOnline "a",
         Effect.enqueueBroadcast [("type", JVal.s "custom")]] ∧
      serializeFields [("type", JVal.s "custom"), ("extra", JVal.s "x")]
        ≠ serializeFields [("type", JVal.s "custom")] := by
  decide

/-- C9 (amended): a successfully decoded frame whose type is outside
the recognised set is still forwarded to all connections, but as the
re-marshalled decoded message (unknown fields dropped, field order and
formatting canonicalised), not the original raw bytes; the engine then
delivers that re-marshalled frame to every live connection with queue
room. -/
theorem c9_unknown_type_forwarded_remarshalled (s : HubState)
    (cid now : Nat) (fields : List (String × JVal)) (m : WebSocketMessage)
    (hallow : (limiterAllow (getClient s cid) now).1 = true)
    (hdec : decodeFields fields = some m)
    (hty : m.type ∉ (["user_join", "user_leave", "message", "user_list",
      "status_change", "status_request", "profile_update",
      "heartbeat"] : List String)) :
    (processFrame s cid now (InFrame.obj fields)).2 =
      (if (getClient s cid).userID = "" then []
       else [Effect.setOnline (getClient s cid).userID])
        ++ (if m.sender = "" then [] else [Effect.setOnline m.sender])
        ++ [Effect.enqueueBroadcast (marshalMsg m)] ∧
    (∀ (t : HubState), t.clients.Nodup →
      (∀ c ∈ t.clients, (lookupA t.heap c).isSome) →
      (∀ c ∈ t.clients, (getClient t c).send.length < sendCap) →
      ∃ t', broadcastStep t (marshalMsg m) = BroadcastOutcome.done t' [] ∧
        ∀ c ∈ t.clients,
          (getClient t' c).send = (getClient t c).send ++ [marshalMsg m]) := by
  have hjoin : m.type ≠ "user_join" := fun h => hty (by rw [h]; simp)
  have hleave : m.type ≠ "user_leave" := fun h => hty (by rw [h]; simp)
  have hmsg : m.type ≠ "message" := fun h => hty (by rw [h]; simp)
  have hsreq : m.type ≠ "status_request" := fun h => hty (by rw [h]; simp)
  have hpupd : m.type ≠ "profile_update" := fun h => hty (by rw [h]; simp)
  have hhb : m.type ≠ "heartbeat" := fun h => hty (by rw [h]; simp)
  constructor
  · simp [processFrame, hallow, hdec, dispatchMsg, broadcastMessageEff,
      hjoin, hleave, hmsg, hsreq, hpupd, hhb, updLimiter_userID]
  · intro t hnd hheap hroom
    obtain ⟨t', h1, h2, -, -, -⟩ :=
      broadcastGo_all_delivered (marshalMsg m) t.clients t [] hnd hheap hroom
    exact ⟨t', h1, h2⟩

theorem c9_unknown_type_forwarded_remarshalled_witness :
    (processFrame freshHub 1 0
        (InFrame.obj [("type", JVal.s "custom"), ("extra", JVal.s "x")])).2
      = (if (getClient freshHub 1).userID = "" then []
         else [Effect.setOnline (getClient freshHub 1).userID])
          ++ (if ({ type := "custom" } : WebSocketMessage).sender = ""
              then [] else [Effect.setOnline
                ({ type := "custom" } : WebSocketMessage).sender])
          ++ [Effect.enqueueBroadcast
                (marshalMsg ({ type := "custom" } : WebSocketMessage))] :=
  (c9_unknown_type_forwarded_remarshalled freshHub 1 0
    [("type", JVal.s "custom"), ("extra", JVal.s "x")] { type := "custom" }
    (by decide) (by decide) (by decide)).1

/-! ## Roster building (C4) -/

/-- A hub with one known user "u" holding a live registered connection,
paired below with an empty (lagging/expired) store read. -/
def lagHub : HubState :=
  { heap := [(1, { userID := "u" })], clients := [1],
    userIDs := [("u", 1)], knownUsers := ["u"], activeConnections := 1 }

/-- C4: the claim asserts the periodic tick's roster cross-references
registry membership so a registry-live user is always reported online.
The code refutes it: `broadcastUserList` (websocket.go:483-545), the
function the periodic broadcaster calls, forwards the raw Redis
statuses without consulting `h.userIDs`; a user whose store record has
expired is simply absent from the pushed snapshot's statuses even
while its connection is live in the registry. -/
theorem c4_counterexample :
    (lookupA lagHub.userIDs "u").isSome ∧
      lookupA (broadcastUserListMsg [] [] lagHub).statuses "u"
        ≠ some "online" := by
  decide

/-- C4 (amended): the periodic tick's roster is built from the
known-users set and the raw store statuses only — two hubs with the
same known-users set push identical snapshots regardless of registry
membership; cross-referencing against the registry happens only in the
`status_request` reply path (`sendUserListWithStatus`), where every
known user with a live `userIDs` entry is reported online. -/
theorem c4_periodic_roster_ignores_registry :
    (∀ (statuses : List (String × String))
        (profiles : List (String × UserProfile)) (s t : HubState),
      s.knownUsers = t.knownUsers →
      broadcastUserListMsg statuses profiles s
        = broadcastUserListMsg statuses profiles t) ∧
    (∀ (statuses : List (String × String)) (s : HubState) (uid : String),
      uid ∈ s.knownUsers → (lookupA s.userIDs uid).isSome →
      lookupA (sendUserListWithStatusMsg statuses s).statuses uid
        = some "online") := by
  constructor
  · intro statuses profiles s t h
    simp [broadcastUserListMsg, h]
  · intro statuses s uid hknown hlive
    show lookupA (sendUserListStatuses s statuses) uid = some "online"
    unfold sendUserListStatuses
    have key : ∀ (l : List String) (acc : List (String × String)),
        (uid ∈ l ∨ lookupA acc uid = some "online") →
        lookupA (l.foldl
          (fun acc u =>
            if (lookupA s.userIDs u).isSome then insertA acc u "online"
            else if (lookupA acc u).isSome then acc
            else insertA acc u "offline") acc) uid = some "online" := by
      intro l
      induction l with
      | nil =>
          intro acc h
          rcases h with h | h
          · simp at h
          · exact h
      | cons u l ih =>
          intro acc h
          simp only [List.foldl_cons]
          by_cases hu : u = uid
          · subst hu
            apply ih
            right
            rw [if_pos hlive]
            exact lookupA_insertA_self _ _ _
          · rcases h with h | h
            · rcases List.mem_cons.mp h with h | h
              · exact absurd h.symm hu
              · exact ih _ (Or.inl h)
            · apply ih
              right
              by_cases h1 : (lookupA s.userIDs u).isSome
              · rw [if_pos h1, lookupA_insertA_ne _ _ _ _ hu]
                exact h
              · rw [if_neg h1]
                by_cases h2 : (lookupA acc u).isSome
                · rw [if_pos h2]
                  exact h
                · rw [if_neg h2, lookupA_insertA_ne _ _ _ _ hu]
                  exact h
    exact key s.knownUsers statuses (Or.inl hknown)

theorem c4_periodic_roster_ignores_registry_witness :
    broadcastUserListMsg [] [] lagHub
        = broadcastUserListMsg [] []
            { lagHub with clients := [], userIDs := [] } ∧
      lookupA (sendUserListWithStatusMsg [] lagHub).statuses "u"
        = some "online" :=
  ⟨c4_periodic_roster_ignores_registry.1 [] [] lagHub
      { lagHub with clients := [], userIDs := [] } rfl,
   c4_periodic_roster_ignores_registry.2 [] lagHub "u"
      (by decide) (by decide)⟩

/-! ## Idempotence of the close sequence (C7) -/

/-- C7: the claim asserts that unregistering an already-removed
connection is a complete no-op.  The code refutes one observable: the
`ActiveConnections` decrement sits outside the membership check
(websocket.go:138), so a second unregister of the same connection
emits no events but still decrements the admission counter — the state
after two runs differs from the state after one. -/
theorem c7_counterexample :
    (unregisterStep (unregisterStep freshHub 1).1 1).2 = [] ∧
      (unregisterStep (unregisterStep freshHub 1).1 1).1.activeConnections
        ≠ (unregisterStep freshHub 1).1.activeConnections := by
  decide

/-- C7 (amended): the close sequence is idempotent in every enumerated
observable except the active-connections counter: a second
`Client.close` on the same connection changes nothing and emits no
transport-close (the `closed` flag guards it), a second unregister of
the same connection emits no effect at all — no second queue-close, no
second presence-offline event, no second `status_change`/user-list
broadcast — and leaves the registry state unchanged except for
decrementing the active-connections counter again; unregistering a
connection that was never registered likewise only decrements that
counter. -/
theorem c7_close_sequence_idempotent (s : HubState) (cid : Nat)
    (hnd : s.clients.Nodup) (hheap : (lookupA s.heap cid).isSome) :
    closeClient (closeClient s cid).1 cid = ((closeClient s cid).1, []) ∧
      unregisterStep (unregisterStep s cid).1 cid
        = ({ (unregisterStep s cid).1 with
              activeConnections :=
                (unregisterStep s cid).1.activeConnections - 1 }, []) ∧
      (cid ∉ s.clients →
        unregisterStep s cid
          = ({ s with activeConnections := s.activeConnections - 1 }, [])) := by
  refine ⟨?_, ?_, ?_⟩
  · by_cases hcl : (getClient s cid).closed
    · have h1 : closeClient s cid = (s, []) := by
        unfold closeClient
        rw [if_pos hcl]
      rw [h1]
      unfold closeClient
      rw [if_pos hcl]
    · have h1 : closeClient s cid
          = (updClient s cid (fun c => { c with closed := true }),
             [Effect.closeTransport cid]) := by
        unfold closeClient
        rw [if_neg hcl]
      rw [h1]
      unfold closeClient
      rw [if_pos (by
        rw [getClient_updClient_mem s cid _ hheap])]
  · set s1 := (unregisterStep s cid).1 with hs1
    have hnotin : cid ∉ s1.clients := by
      rw [hs1, unregisterStep_clients]
      by_cases hmem : cid ∈ s.clients
      · rw [if_pos hmem]
        intro h
        exact ((hnd.mem_erase_iff).mp h).1 rfl
      · rw [if_neg hmem]
        exact hmem
    unfold unregisterStep
    rw [if_neg hnotin]
  · intro hmem
    unfold unregisterStep
    rw [if_neg hmem]

theorem c7_close_sequence_idempotent_witness :
    closeClient (closeClient freshHub 1).1 1 = ((closeClient freshHub 1).1, []) ∧
      unregisterStep { freshHub with clients := [1] } 2
        = ({ { freshHub with clients := [1] } with
              activeConnections :=
                { freshHub with clients := [1] }.activeConnections - 1 }, []) :=
  ⟨(c7_close_sequence_idempotent freshHub 1 (by decide) (by decide)).1,
   (c7_close_sequence_idempotent { freshHub with clients := [1] } 2
       (by decide) (by decide)).2.2 (by decide)⟩

end RTCS
